import Mathlib

set_option maxRecDepth 10000

/-!
Shallow embedding of the card/deck program in src/CardDProject/main.py.

Conventions of the embedding:
* Python machine state that an operation can mutate is passed and returned
  explicitly: a Deck method that can both mutate the deck and raise becomes a
  function returning a pair of an Except result and the post-call deck state
  (Python exceptions propagate, but mutations performed before the raise
  persist in the object).
* Python exception classes are the constructors of PyError; messages are not
  modelled, only the class raised.
* Arguments whose Python type is checked dynamically with isinstance are
  modelled by the sum type PyVal.
* random.shuffle is modelled, where reachability of states matters, by a
  step that may replace the card list with any permutation of it.
-/

/-- Embedding of the CardSuit enum: four suits, each with a numeric value. -/
inductive CardSuit
  | CLUBS
  | DIAMONDS
  | HEARTS
  | SPADES
deriving DecidableEq, Repr, Fintype

/-- Numeric value carried by each CardSuit member (the Enum value). -/
def CardSuit.value : CardSuit → Nat
  | .CLUBS => 1
  | .DIAMONDS => 2
  | .HEARTS => 3
  | .SPADES => 4

/-- Embedding of the CardRank enum: thirteen ranks TWO..ACE. -/
inductive CardRank
  | TWO
  | THREE
  | FOUR
  | FIVE
  | SIX
  | SEVEN
  | EIGHT
  | NINE
  | TEN
  | JACK
  | QUEEN
  | KING
  | ACE
deriving DecidableEq, Repr, Fintype

/-- Numeric value carried by each CardRank member (the Enum value), 2..14. -/
def CardRank.value : CardRank → Nat
  | .TWO => 2
  | .THREE => 3
  | .FOUR => 4
  | .FIVE => 5
  | .SIX => 6
  | .SEVEN => 7
  | .EIGHT => 8
  | .NINE => 9
  | .TEN => 10
  | .JACK => 11
  | .QUEEN => 12
  | .KING => 13
  | .ACE => 14

/-- Embedding of the Card class: an immutable (rank, suit) pair.  Construction
with members of the enums always passes the isinstance validation in
Card.__init__, so the ValueError branch is unreachable for values of this
type. -/
structure Card where
  rank : CardRank
  suit : CardSuit
deriving DecidableEq, Repr

/-- The Python exception classes this program raises, by class only. -/
inductive PyError
  | valueError
  | typeError
  | indexError
  | deckCheatingError
deriving DecidableEq, Repr

/-- A dynamically typed Python value, used where the source does isinstance
checks on an argument (deck indexing, card comparison). -/
inductive PyVal
  | int (i : Int)
  | str (s : String)
  | card (c : Card)
deriving DecidableEq, Repr

/-- Embedding of Card.__lt__ restricted to Card arguments: compare rank
values, then suit values on a tie. -/
def Card.lt (self other : Card) : Bool :=
  if self.rank.value < other.rank.value then
    true
  else if self.rank.value > other.rank.value then
    false
  else
    decide (self.suit.value < other.suit.value)

/-- Embedding of Card.__eq__ on an arbitrary Python value: raises TypeError
unless the other value is a Card, otherwise compares rank and suit. -/
def Card.eq (self : Card) (other : PyVal) : Except PyError Bool :=
  match other with
  | .card o => .ok (self.rank == o.rank && self.suit == o.suit)
  | _ => .error .typeError

/-- Embedding of the duplicate scan inside the fair_deck decorator: walk the
list keeping the set of cards seen so far, and report true as soon as a card
equal to an already-seen one is met (the decorator raises DeckCheatingError
exactly when this scan reports true). -/
def fair_scan (seen : List Card) : List Card → Bool
  | [] => false
  | c :: rest => seen.contains c || fair_scan (c :: seen) rest

/-- Embedding of the Deck class state: the underlying card list and the draw
cursor, as in the fields of Deck.__init__. -/
structure Deck where
  _cards : List Card
  _draw_index : Nat
deriving DecidableEq, Repr

/-- The list of all CardRank members in Enum declaration order. -/
def CardRank.all : List CardRank :=
  [.TWO, .THREE, .FOUR, .FIVE, .SIX, .SEVEN, .EIGHT, .NINE, .TEN,
   .JACK, .QUEEN, .KING, .ACE]

/-- The list of all CardSuit members in Enum declaration order. -/
def CardSuit.all : List CardSuit :=
  [.CLUBS, .DIAMONDS, .HEARTS, .SPADES]

/-- The card list built by the loops in Deck.__init__: for each suit in
declaration order, all ranks in declaration order. -/
def freshCards : List Card :=
  (CardSuit.all.map (fun suit => CardRank.all.map (fun rank => Card.mk rank suit))).flatten

/-- The deck produced by Deck(shuffle=False): the canonical 52-card list and
cursor 0. -/
def deckNoShuffle : Deck :=
  { _cards := freshCards, _draw_index := 0 }

/-- The remaining (undrawn) cards: the slice of the underlying list at or
after the cursor. -/
def Deck.remaining (d : Deck) : List Card :=
  d._cards.drop d._draw_index

/-- The already-drawn cards: the slice of the underlying list before the
cursor. -/
def Deck.drawn (d : Deck) : List Card :=
  d._cards.take d._draw_index

/-- Embedding of Deck.__len__: len of the underlying list minus the cursor
(as a Python int). -/
def Deck.len (d : Deck) : Int :=
  (d._cards.length : Int) - (d._draw_index : Int)

/-- Embedding of the fair_deck-decorated cards property: the wrapped function
builds a fresh copy of the remaining slice, then the decorator scans
self._cards — the FULL underlying list, because self is a Deck with a _cards
attribute — and raises DeckCheatingError if that scan finds a duplicate,
otherwise the copy is returned. -/
def Deck.cardsProp (d : Deck) : Except PyError (List Card) :=
  let result := d._cards.drop d._draw_index
  if fair_scan [] d._cards then
    .error .deckCheatingError
  else
    .ok result

/-- Embedding of Deck.draw: return None when the cursor is at or past the end
of the underlying list, else return the card at the cursor and advance the
cursor by one. -/
def Deck.draw (d : Deck) : Option Card × Deck :=
  if d._cards.length ≤ d._draw_index then
    (none, d)
  else
    (d._cards[d._draw_index]?, { d with _draw_index := d._draw_index + 1 })

/-- Embedding of the fair_deck-decorated Deck.add_card on a Card argument
(the isinstance TypeError branch is unreachable for a Card).  The wrapped
function first checks the card for membership in the remaining slice and
raises DeckCheatingError without mutating anything; otherwise it appends the
card.  Only then does the decorator scan the FULL underlying list (which now
includes the appended card) and raise DeckCheatingError if that scan finds a
duplicate — the append is not rolled back. -/
def Deck.add_card (d : Deck) (card : Card) : Except PyError Unit × Deck :=
  if (d._cards.drop d._draw_index).contains card then
    (.error .deckCheatingError, d)
  else
    let d2 : Deck := { d with _cards := d._cards ++ [card] }
    if fair_scan [] d2._cards then
      (.error .deckCheatingError, d2)
    else
      (.ok (), d2)

/-- Fallback card for the guarded list accesses below; every use is under a
bounds check that makes the fallback unreachable. -/
def dCard : Card :=
  { rank := .TWO, suit := .CLUBS }

/-- Embedding of Deck.__getitem__: TypeError when the index is not an int,
IndexError unless 0 <= index < len(self), else the card of the underlying
list at position draw index plus index. -/
def Deck.getitem (d : Deck) (index : PyVal) : Except PyError Card :=
  match index with
  | .int i =>
    if 0 ≤ i ∧ i < d.len then
      .ok (d._cards.getD (d._draw_index + i.toNat) dCard)
    else
      .error .indexError
  | _ => .error .typeError

/-- Iterated Deck.draw: the deck state after n draw calls. -/
def drawN : Deck → Nat → Deck
  | d, 0 => d
  | d, n + 1 => (Deck.draw (drawN d n)).2

/-- The deck states reachable through the public operations, with the state
an operation leaves behind even when it raises: construction (with or
without shuffling), shuffling (any permutation of the full underlying list,
cursor reset to 0), drawing, adding a card (keeping the post-call state both
on success and on a DeckCheatingError), and reading the cards property
(which never mutates). -/
inductive Reachable : Deck → Prop
  | construct_noshuffle : Reachable deckNoShuffle
  | construct_shuffled (l : List Card) (hp : l.Perm freshCards) :
      Reachable { _cards := l, _draw_index := 0 }
  | shuffle_step (d : Deck) (l : List Card) (hd : Reachable d) (hp : l.Perm d._cards) :
      Reachable { _cards := l, _draw_index := 0 }
  | draw_step (d : Deck) (hd : Reachable d) : Reachable (Deck.draw d).2
  | add_step (d : Deck) (c : Card) (hd : Reachable d) : Reachable (Deck.add_card d c).2
  | cards_step (d : Deck) (hd : Reachable d) : Reachable d

/-- The deck states reachable through operation calls that complete without
raising: as Reachable, but an add_card step is admitted only when the call
returned normally. -/
inductive ReachableOk : Deck → Prop
  | construct_noshuffle : ReachableOk deckNoShuffle
  | construct_shuffled (l : List Card) (hp : l.Perm freshCards) :
      ReachableOk { _cards := l, _draw_index := 0 }
  | shuffle_step (d : Deck) (l : List Card) (hd : ReachableOk d) (hp : l.Perm d._cards) :
      ReachableOk { _cards := l, _draw_index := 0 }
  | draw_step (d : Deck) (hd : ReachableOk d) : ReachableOk (Deck.draw d).2
  | add_step (d : Deck) (c : Card) (hd : ReachableOk d)
      (hok : (Deck.add_card d c).1 = .ok ()) : ReachableOk (Deck.add_card d c).2
  | cards_step (d : Deck) (hd : ReachableOk d)
      (hok : (Deck.cardsProp d).isOk) : ReachableOk d

/-- The result values cards_stats can map a request name to. -/
inductive StatVal
  | cards (l : List Card)
  | nat (n : Nat)
deriving DecidableEq, Repr

/-- Python dict assignment on an association list: overwrite the value of an
existing key in place, else append the new pair. -/
def dictSet (m : List (String × StatVal)) (k : String) (v : StatVal) :
    List (String × StatVal) :=
  match m with
  | [] => [(k, v)]
  | (k0, v0) :: rest =>
    if k0 = k then (k0, v) :: rest else (k0, v0) :: dictSet rest k v

/-- Model of Python sorted() over Cards, which sorts ascending by __lt__ and
is stable.  Card.lt is a total order under which distinct cards never tie
(equal rank and suit values force equal cards), so every correct ascending
sort produces the same list; insertion sort is used because it is
structurally recursive. -/
def pySorted (l : List Card) : List Card :=
  l.insertionSort (fun a b => Card.lt a b = true)

/-- The kwargs loop of cards_stats: for each (key, value) in order, raise
ValueError unless the value is a positive int; recognized keys max / min /
len store their result under that key (top-value slice of the sorted list,
bottom-value slice, input count), the count clamped to the collection size;
unknown keys only print a warning. -/
def statsLoop (sorted_cards : List Card) (numCards : Nat) :
    List (String × Int) → List (String × StatVal) →
    Except PyError (List (String × StatVal))
  | [], results => .ok results
  | (key, value) :: rest, results =>
    if value ≤ 0 then
      .error .valueError
    else if key = "max" then
      let v : Int :=
        if value > (sorted_cards.length : Int) then (sorted_cards.length : Int) else value
      statsLoop sorted_cards numCards rest
        (dictSet results "max" (.cards (sorted_cards.drop (sorted_cards.length - v.toNat))))
    else if key = "min" then
      let v : Int :=
        if value > (sorted_cards.length : Int) then (sorted_cards.length : Int) else value
      statsLoop sorted_cards numCards rest
        (dictSet results "min" (.cards (sorted_cards.take v.toNat)))
    else if key = "len" then
      statsLoop sorted_cards numCards rest (dictSet results "len" (.nat numCards))
    else
      statsLoop sorted_cards numCards rest results

/-- Embedding of cards_stats: ValueError on an empty card collection, else
run the kwargs loop over the sorted cards with an empty result dict.  The
int values of the kwargs model Python int keyword values (a non-int value
also raises ValueError in the source and is outside this type). -/
def cards_stats (cards : List Card) (kwargs : List (String × Int)) :
    Except PyError (List (String × StatVal)) :=
  if cards.isEmpty then
    .error .valueError
  else
    statsLoop (pySorted cards) cards.length kwargs []

deriving instance DecidableEq for Except

/-- The Two of Clubs, the first card of the canonical enumeration. -/
def twoClubs : Card := { rank := .TWO, suit := .CLUBS }

/-- The deck after Deck(shuffle=False) followed by one draw: the Two of
Clubs has been drawn, the cursor is 1. -/
def deckAfterDraw : Deck := (Deck.draw deckNoShuffle).2

/-- The deck left behind by add_card(Two of Clubs) on deckAfterDraw: the
call raises DeckCheatingError from the decorator, but the card has already
been appended, so this state has 53 cards with the Two of Clubs both before
the cursor and at the end. -/
def deckBad : Deck := (Deck.add_card deckAfterDraw twoClubs).2

/-- deckBad after a shuffle that happens to produce the identity
permutation: the cursor is reset to 0, so both copies of the Two of Clubs
are in the remaining slice. -/
def deckBadShuffled : Deck := { _cards := deckBad._cards, _draw_index := 0 }

/-- Ace of Spades. -/
def aceSpades : Card := { rank := .ACE, suit := .SPADES }

/-- Two of Hearts. -/
def twoHearts : Card := { rank := .TWO, suit := .HEARTS }

/-- Ace of Diamonds. -/
def aceDiamonds : Card := { rank := .ACE, suit := .DIAMONDS }

/-- King of Clubs. -/
def kingClubs : Card := { rank := .KING, suit := .CLUBS }

/-- Three of Spades. -/
def threeSpades : Card := { rank := .THREE, suit := .SPADES }

/-- Nine of Hearts. -/
def nineHearts : Card := { rank := .NINE, suit := .HEARTS }

/-- The six cards the driver passes to cards_stats. -/
def statsCards : List Card :=
  [aceSpades, twoHearts, aceDiamonds, kingClubs, threeSpades, nineHearts]

/-- A store of Python list objects, addressed by allocation order.  Used to
model aliasing: the cards property returns a NEW list object (list(...) is a
copy), so mutating the returned object must not touch the deck's own
list. -/
structure Heap where
  lists : List (List Card)
deriving DecidableEq, Repr

/-- Read the list object at a reference (empty for a dangling reference;
all uses are at live references). -/
def Heap.read (h : Heap) (r : Nat) : List Card :=
  (h.lists[r]?).getD []

/-- In-place mutation of the list object at a reference. -/
def Heap.write (h : Heap) (r : Nat) (l : List Card) : Heap :=
  { lists := h.lists.set r l }

/-- Allocation of a new list object; returns the new heap and the fresh
reference. -/
def Heap.alloc (h : Heap) (l : List Card) : Heap × Nat :=
  ({ lists := h.lists ++ [l] }, h.lists.length)

/-- A Deck living in the heap model: a reference to its backing list plus
the cursor. -/
structure DeckRef where
  ref : Nat
  _draw_index : Nat
deriving DecidableEq, Repr

/-- The pure deck state a heap deck denotes. -/
def DeckRef.view (h : Heap) (d : DeckRef) : Deck :=
  { _cards := h.read d.ref, _draw_index := d._draw_index }

/-- The cards property in the heap model: after the fair_deck scan of the
full backing list, list(self._cards[self._draw_index:]) allocates a fresh
list object holding a copy of the remaining slice and returns a reference
to it. -/
def DeckRef.cardsPropH (h : Heap) (d : DeckRef) : Except PyError (Heap × Nat) :=
  let underlying := h.read d.ref
  if fair_scan [] underlying then
    .error .deckCheatingError
  else
    .ok (h.alloc (underlying.drop d._draw_index))

/-- The fair_deck scan reports no duplicate exactly when the scanned list
has no duplicates and avoids everything already seen. -/
theorem fair_scan_eq_false_iff (l : List Card) : ∀ seen : List Card,
    (fair_scan seen l = false ↔ l.Nodup ∧ ∀ c ∈ l, c ∉ seen) := by
  induction l with
  | nil => intro seen; simp [fair_scan]
  | cons c rest ih =>
    intro seen
    have hstep : fair_scan seen (c :: rest) = (seen.contains c || fair_scan (c :: seen) rest) :=
      rfl
    rw [hstep, Bool.or_eq_false_iff, ih (c :: seen)]
    constructor
    · rintro ⟨hc0, hnd, hall⟩
      have hcseen : c ∉ seen := by simpa using hc0
      refine ⟨List.nodup_cons.mpr ⟨?_, hnd⟩, ?_⟩
      · intro hcrest
        exact (hall c hcrest) (List.mem_cons_self c seen)
      · intro x hx
        rcases List.mem_cons.mp hx with rfl | hxrest
        · exact hcseen
        · intro hxs
          exact (hall x hxrest) (List.mem_cons_of_mem c hxs)
    · rintro ⟨hnd, hall⟩
      have hcrest : c ∉ rest := (List.nodup_cons.mp hnd).1
      have hrest : rest.Nodup := (List.nodup_cons.mp hnd).2
      have hcseen : c ∉ seen := hall c (List.mem_cons_self c rest)
      refine ⟨by simpa using hcseen, hrest, ?_⟩
      intro x hx hxcseen
      rcases List.mem_cons.mp hxcseen with rfl | hxs
      · exact hcrest hx
      · exact (hall x (List.mem_cons_of_mem c hx)) hxs

/-- The fair_deck scan from an empty seen set reports no duplicate exactly
when the list has no duplicates. -/
theorem fair_scan_nil_eq_false_iff (l : List Card) :
    fair_scan [] l = false ↔ l.Nodup := by
  rw [fair_scan_eq_false_iff]
  simp

/-- C5: Card(r1, s1) < Card(r2, s2) holds iff r1's numeric strength is less
than r2's, or the strengths are equal and s1's numeric tiebreak order is
less than s2's. -/
theorem C5_lt_iff :
    ∀ (r1 r2 : CardRank) (s1 s2 : CardSuit),
      Card.lt { rank := r1, suit := s1 } { rank := r2, suit := s2 } = true ↔
        (r1.value < r2.value ∨ (r1.value = r2.value ∧ s1.value < s2.value)) := by
  decide

/-- C6: a freshly constructed deck has exactly 52 cards, one per
(rank, suit) pair with no duplicates; with shuffle=False they are in the
canonical order (all ranks for suit 1, then suit 2, ...) with cursor 0; a
shuffled construction is a permutation of the canonical list and keeps
size, distinctness and completeness. -/
theorem C6_fresh_deck :
    deckNoShuffle._cards.length = 52 ∧
    deckNoShuffle._draw_index = 0 ∧
    deckNoShuffle._cards.Nodup ∧
    (∀ (r : CardRank) (s : CardSuit),
      ({ rank := r, suit := s } : Card) ∈ deckNoShuffle._cards) ∧
    (∀ i : Fin 52, deckNoShuffle._cards.getD i.val dCard =
      { rank := CardRank.all.getD (i.val % 13) CardRank.TWO,
        suit := CardSuit.all.getD (i.val / 13) CardSuit.CLUBS }) ∧
    (∀ l : List Card, l.Perm freshCards →
      l.length = 52 ∧ l.Nodup ∧
        ∀ (r : CardRank) (s : CardSuit), ({ rank := r, suit := s } : Card) ∈ l) := by
  have hmemAll : ∀ (r : CardRank) (s : CardSuit),
      ({ rank := r, suit := s } : Card) ∈ freshCards := by decide
  refine ⟨by decide, rfl, by decide, hmemAll, by decide, ?_⟩
  intro l hp
  have h52 : freshCards.length = 52 := by decide
  have hnd : freshCards.Nodup := by decide
  exact ⟨hp.length_eq.trans h52, hp.nodup_iff.mpr hnd,
    fun r s => hp.mem_iff.mpr (hmemAll r s)⟩

/-- Witness for C6_fresh_deck: the shuffle-permutation hypothesis
discharged with the identity permutation of the canonical list. -/
theorem C6_fresh_deck_witness :
    freshCards.length = 52 ∧ freshCards.Nodup :=
  ⟨(C6_fresh_deck.2.2.2.2.2 freshCards (List.Perm.refl _)).1,
   (C6_fresh_deck.2.2.2.2.2 freshCards (List.Perm.refl _)).2.1⟩

/-- C2 counterexample: adding the Two of Clubs to a fresh unshuffled deck
(the card is among the remaining cards) raises DeckCheatingError from the
membership check BEFORE any mutation: the deck is unchanged and the
violating card was never appended, so the failing call did not execute its
mutation first. -/
theorem C2_counterexample :
    (Deck.add_card deckNoShuffle twoClubs).1 = .error .deckCheatingError ∧
    (Deck.add_card deckNoShuffle twoClubs).2 = deckNoShuffle := by
  decide

/-- C2 amended: when add_card raises DeckCheatingError, either the card
equals a remaining card and the error precedes any mutation (the deck is
unchanged), or the card equals no remaining card and the decorator raises
only after the card has already been appended. -/
theorem C2_amended (d : Deck) (c : Card)
    (_h : (Deck.add_card d c).1 = .error .deckCheatingError) :
    (c ∈ Deck.remaining d ∧ (Deck.add_card d c).2 = d) ∨
    (c ∉ Deck.remaining d ∧ (Deck.add_card d c).2._cards = d._cards ++ [c]) := by
  by_cases hmem : c ∈ List.drop d._draw_index d._cards
  · left
    exact ⟨hmem, by simp [Deck.add_card, hmem]⟩
  · right
    refine ⟨hmem, ?_⟩
    by_cases hf : fair_scan [] (d._cards ++ [c]) = true
    · simp [Deck.add_card, hmem, hf]
    · rw [Bool.not_eq_true] at hf
      simp [Deck.add_card, hmem, hf]

/-- Witness for C2_amended at a fresh unshuffled deck and the Two of
Clubs. -/
theorem C2_amended_witness :
    (Deck.add_card deckNoShuffle twoClubs).1 = .error .deckCheatingError ∧
    ((twoClubs ∈ Deck.remaining deckNoShuffle ∧
        (Deck.add_card deckNoShuffle twoClubs).2 = deckNoShuffle) ∨
     (twoClubs ∉ Deck.remaining deckNoShuffle ∧
        (Deck.add_card deckNoShuffle twoClubs).2._cards =
          deckNoShuffle._cards ++ [twoClubs])) :=
  ⟨by decide, C2_amended deckNoShuffle twoClubs (by decide)⟩

/-- C3 counterexample: after drawing the Two of Clubs from an unshuffled
deck, that card equals a drawn card and no remaining card, yet add_card
raises DeckCheatingError (from the decorator scan of the full underlying
list), so re-adding a discarded card does not succeed. -/
theorem C3_counterexample :
    twoClubs ∈ Deck.drawn deckAfterDraw ∧
    twoClubs ∉ Deck.remaining deckAfterDraw ∧
    (Deck.add_card deckAfterDraw twoClubs).1 = .error .deckCheatingError := by
  refine ⟨by decide, by decide, by decide⟩

/-- C3 amended: for a card equal to some drawn card but to no remaining
card, add_card does append the card to the end of the underlying sequence,
but then raises DeckCheatingError: the decorator scans the full underlying
list, where the drawn copy collides with the appended copy. -/
theorem C3_amended (d : Deck) (c : Card)
    (hdrawn : c ∈ Deck.drawn d) (hrem : c ∉ Deck.remaining d) :
    Deck.add_card d c =
      (.error .deckCheatingError, { d with _cards := d._cards ++ [c] }) := by
  have hmemdrop : c ∉ List.drop d._draw_index d._cards := hrem
  have hmem : c ∈ d._cards := List.Sublist.mem hdrawn (List.take_sublist _ _)
  have hnotnodup : ¬ (d._cards ++ [c]).Nodup := by
    rw [List.nodup_append]
    rintro ⟨-, -, hdisj⟩
    exact hdisj hmem (List.mem_singleton_self c)
  have hf : fair_scan [] (d._cards ++ [c]) = true := by
    by_contra hne
    rw [Bool.not_eq_true] at hne
    exact hnotnodup ((fair_scan_nil_eq_false_iff _).mp hne)
  simp [Deck.add_card, hmemdrop, hf]

/-- Witness for C3_amended after drawing the Two of Clubs from an
unshuffled deck and re-adding that same card. -/
theorem C3_amended_witness :
    twoClubs ∈ Deck.drawn deckAfterDraw ∧
    twoClubs ∉ Deck.remaining deckAfterDraw ∧
    Deck.add_card deckAfterDraw twoClubs =
      (.error .deckCheatingError,
        { deckAfterDraw with _cards := deckAfterDraw._cards ++ [twoClubs] }) :=
  ⟨by decide, by decide, C3_amended deckAfterDraw twoClubs (by decide) (by decide)⟩

/-- C4 counterexample: in the reachable state deckBad the remaining (live)
cards contain no duplicates, yet the cards property raises
DeckCheatingError — the guard scans the full underlying list, where a drawn
card collides with the appended one, so failing "if and only if the live
deck contains duplicates" is violated in the only-if direction. -/
theorem C4_counterexample :
    (Deck.remaining deckBad).Nodup ∧
    Deck.cardsProp deckBad = .error .deckCheatingError := by
  refine ⟨by decide, by decide⟩

/-- C4 amended: the cards property returns a snapshot of the remaining
cards in current order, and raises DeckCheatingError exactly when the FULL
underlying sequence (drawn and remaining cards together) contains duplicate
Card values. -/
theorem C4_amended (d : Deck) :
    Deck.cardsProp d =
      if d._cards.Nodup then .ok (Deck.remaining d) else .error .deckCheatingError := by
  by_cases h : d._cards.Nodup
  · have hf : fair_scan [] d._cards = false := (fair_scan_nil_eq_false_iff _).mpr h
    simp [Deck.cardsProp, Deck.remaining, hf, h]
  · have hf : fair_scan [] d._cards = true := by
      by_contra hne
      rw [Bool.not_eq_true] at hne
      exact h ((fair_scan_nil_eq_false_iff _).mp hne)
    simp [Deck.cardsProp, hf, h]

/-- C1 counterexample: the state reached by Construct(shuffle=False), Draw,
AddCard(Two of Clubs) — which raises but still appends — and a Shuffle that
deals the identity permutation is reachable, and its remaining-cards
subsequence contains the Two of Clubs twice. -/
theorem C1_counterexample :
    Reachable deckBadShuffled ∧ ¬ (Deck.remaining deckBadShuffled).Nodup := by
  constructor
  · have h1 : Reachable deckAfterDraw :=
      Reachable.draw_step deckNoShuffle Reachable.construct_noshuffle
    have h2 : Reachable deckBad := Reachable.add_step deckAfterDraw twoClubs h1
    exact Reachable.shuffle_step deckBad deckBad._cards h2 (List.Perm.refl _)
  · decide

/-- In every state reachable through calls that complete without raising,
the full underlying card list has no duplicates. -/
theorem reachableOk_cards_nodup (d : Deck) (h : ReachableOk d) : d._cards.Nodup := by
  induction h with
  | construct_noshuffle => decide
  | construct_shuffled l hp => exact hp.nodup_iff.mpr (by decide)
  | shuffle_step d0 l hd hp ih => exact hp.nodup_iff.mpr ih
  | draw_step d0 hd ih =>
    by_cases hle : d0._cards.length ≤ d0._draw_index
    · simpa [Deck.draw, hle] using ih
    · simpa [Deck.draw, hle] using ih
  | add_step d0 c hd hok ih =>
    by_cases hmem : c ∈ List.drop d0._draw_index d0._cards
    · simp [Deck.add_card, hmem] at hok
    · by_cases hf : fair_scan [] (d0._cards ++ [c]) = true
      · simp [Deck.add_card, hmem, hf] at hok
      · rw [Bool.not_eq_true] at hf
        have hnd : (d0._cards ++ [c]).Nodup := (fair_scan_nil_eq_false_iff _).mp hf
        simpa [Deck.add_card, hmem, hf] using hnd
  | cards_step d0 hd hok ih => exact ih

/-- C1 amended: after any sequence of Construct / Shuffle / Draw / AddCard
/ RemainingCards calls that complete without raising, the remaining-cards
subsequence contains no duplicate Card values.  (The original claim also
quantified over histories containing raising calls; C1_counterexample
refutes that: a raising AddCard leaves a duplicate across the cursor, and a
following Shuffle pulls it into the remaining slice.) -/
theorem C1_amended (d : Deck) (h : ReachableOk d) : (Deck.remaining d).Nodup :=
  List.Nodup.sublist (List.drop_sublist _ _) (reachableOk_cards_nodup d h)

/-- Witness for C1_amended at the freshly constructed unshuffled deck. -/
theorem C1_amended_witness :
    ReachableOk deckNoShuffle ∧ (Deck.remaining deckNoShuffle).Nodup :=
  ⟨ReachableOk.construct_noshuffle,
   C1_amended deckNoShuffle ReachableOk.construct_noshuffle⟩

/-- Drawing n ≤ 52 times from the fresh unshuffled deck leaves the card
list unchanged and the cursor at n. -/
theorem drawN_deckNoShuffle : ∀ n : Nat, n ≤ 52 →
    drawN deckNoShuffle n = { _cards := freshCards, _draw_index := n } := by
  intro n
  induction n with
  | zero => intro _; rfl
  | succ k ih =>
    intro h
    have hk : k ≤ 52 := Nat.le_of_succ_le h
    have hstep : drawN deckNoShuffle (k + 1) = (Deck.draw (drawN deckNoShuffle k)).2 := rfl
    rw [hstep, ih hk]
    have h52 : freshCards.length = 52 := by decide
    have hklt : ¬ (freshCards.length ≤ k) := by omega
    simp [Deck.draw, hklt]

/-- C7: after n ≤ 52 draws from a fresh 52-card deck, Length() is 52 - n;
while n < 52, the next draw returns the card at the cursor and advances the
cursor by one; and after 52 draws a further draw returns None (the empty
signal) rather than raising. -/
theorem C7_draws (n : Nat) (h : n ≤ 52) :
    Deck.len (drawN deckNoShuffle n) = 52 - (n : Int) ∧
    (n < 52 →
      (Deck.draw (drawN deckNoShuffle n)).1 = some (freshCards.getD n dCard) ∧
      (Deck.draw (drawN deckNoShuffle n)).2._draw_index = n + 1) ∧
    (Deck.draw (drawN deckNoShuffle 52)).1 = none := by
  have hn := drawN_deckNoShuffle n h
  have h52 : freshCards.length = 52 := by decide
  refine ⟨?_, ?_, ?_⟩
  · rw [hn]
    simp [Deck.len, h52]
  · intro hlt
    rw [hn]
    have hnle : ¬ (freshCards.length ≤ n) := by omega
    have hlt' : n < freshCards.length := by omega
    constructor
    · simp [Deck.draw, hnle, List.getElem?_eq_getElem hlt', List.getD_eq_getElem?_getD]
    · simp [Deck.draw, hnle]
  · rw [drawN_deckNoShuffle 52 (by omega)]
    simp [Deck.draw, h52]

/-- Witness for C7_draws after five draws. -/
theorem C7_draws_witness :
    Deck.len (drawN deckNoShuffle 5) = 47 ∧
    (Deck.draw (drawN deckNoShuffle 5)).1 = some (freshCards.getD 5 dCard) := by
  have h := C7_draws 5 (by decide)
  exact ⟨h.1.trans (by decide), (h.2.1 (by decide)).1⟩

/-- C8 counterexample: a non-integer index makes __getitem__ raise
TypeError — the very same exception class Card.__eq__ raises for a non-Card
comparison (the spec's TypeMismatch) — so the error raised for a mistyped
index is not of a kind distinct from TypeMismatch. -/
theorem C8_counterexample :
    Deck.getitem deckNoShuffle (.str "x") = .error .typeError ∧
    Card.eq twoClubs (.str "x") = .error .typeError :=
  ⟨rfl, rfl⟩

/-- C8 amended: __getitem__ returns the i-th remaining card for an integer
index with 0 ≤ i < Length(); raises IndexError when i is negative or at
least Length(); and raises TypeError — the same exception class used for
non-Card comparisons, not a distinct error kind — when the index is not an
integer. -/
theorem C8_amended (d : Deck) (i : Int) :
    (0 ≤ i → i < Deck.len d →
      Deck.getitem d (.int i) = .ok ((Deck.remaining d).getD i.toNat dCard)) ∧
    (i < 0 ∨ Deck.len d ≤ i → Deck.getitem d (.int i) = .error .indexError) ∧
    (∀ s : String, Deck.getitem d (.str s) = .error .typeError) ∧
    (∀ c : Card, Deck.getitem d (.card c) = .error .typeError) := by
  refine ⟨?_, ?_, fun s => rfl, fun c => rfl⟩
  · intro h0 hlt
    have hcond : 0 ≤ i ∧ i < d.len := ⟨h0, hlt⟩
    simp [Deck.getitem, hcond, Deck.remaining, List.getD_eq_getElem?_getD,
      List.getElem?_drop]
  · intro hiout
    have hcond : ¬ (0 ≤ i ∧ i < d.len) := by
      rcases hiout with hneg | hge
      · rintro ⟨h0, -⟩
        omega
      · rintro ⟨-, hlt⟩
        omega
    simp [Deck.getitem, hcond]

/-- Witness for C8_amended on a fresh unshuffled deck: index 3 in bounds,
index -1 out of bounds, a string index mistyped. -/
theorem C8_amended_witness :
    Deck.getitem deckNoShuffle (.int 3) =
      .ok ((Deck.remaining deckNoShuffle).getD (Int.toNat 3) dCard) ∧
    Deck.getitem deckNoShuffle (.int (-1)) = .error .indexError ∧
    Deck.getitem deckNoShuffle (.str "abc") = .error .typeError :=
  ⟨(C8_amended deckNoShuffle 3).1 (by decide) (by decide),
   (C8_amended deckNoShuffle (-1)).2.1 (Or.inl (by decide)),
   (C8_amended deckNoShuffle (-1)).2.2.1 "abc"⟩

/-- C9 counterexample: over the six driver cards with max=2, min=1, len=1,
cards_stats does not return the mapping the claim lists — its max entry
holds only two cards, not King of Clubs followed by Ace of Diamonds and Ace
of Spades. -/
theorem C9_counterexample :
    cards_stats statsCards [("max", 2), ("min", 1), ("len", 1)] ≠
      .ok [("max", .cards [kingClubs, aceDiamonds, aceSpades]),
           ("min", .cards [twoHearts]),
           ("len", .nat 6)] := by
  decide

/-- C9 amended: over the six driver cards with max=2, min=1, len=1,
cards_stats returns min = [Two of Hearts], len = 6, and max = the two
highest cards sorted ascending, [Ace of Diamonds, Ace of Spades] (the
rank tie broken by suit order, diamonds before spades). -/
theorem C9_amended :
    cards_stats statsCards [("max", 2), ("min", 1), ("len", 1)] =
      .ok [("max", .cards [aceDiamonds, aceSpades]),
           ("min", .cards [twoHearts]),
           ("len", .nat 6)] := by
  decide

/-- C10: a successful cards property call allocates a fresh list object,
distinct from the deck's backing list; overwriting the returned object with
any mutated contents leaves the deck's denoted state — and with it Length,
index access, the next draw result and later snapshots — unchanged. -/
theorem C10_snapshot_fresh (h : Heap) (d : DeckRef) (href : d.ref < h.lists.length)
    (h2 : Heap) (r : Nat) (hok : DeckRef.cardsPropH h d = .ok (h2, r))
    (mutate : List Card → List Card) :
    r ≠ d.ref ∧
    Heap.read h2 r = (Heap.read h d.ref).drop d._draw_index ∧
    DeckRef.view (Heap.write h2 r (mutate (Heap.read h2 r))) d = DeckRef.view h d ∧
    Deck.len (DeckRef.view (Heap.write h2 r (mutate (Heap.read h2 r))) d) =
      Deck.len (DeckRef.view h d) ∧
    (∀ v : PyVal,
      Deck.getitem (DeckRef.view (Heap.write h2 r (mutate (Heap.read h2 r))) d) v =
        Deck.getitem (DeckRef.view h d) v) ∧
    (Deck.draw (DeckRef.view (Heap.write h2 r (mutate (Heap.read h2 r))) d)).1 =
      (Deck.draw (DeckRef.view h d)).1 ∧
    Deck.cardsProp (DeckRef.view (Heap.write h2 r (mutate (Heap.read h2 r))) d) =
      Deck.cardsProp (DeckRef.view h d) := by
  by_cases hf : fair_scan [] (Heap.read h d.ref) = true
  · simp [DeckRef.cardsPropH, hf] at hok
  · rw [Bool.not_eq_true] at hf
    have hok2 : Heap.alloc h ((Heap.read h d.ref).drop d._draw_index) = (h2, r) := by
      simpa [DeckRef.cardsPropH, hf] using hok
    have hh2 : h2 = { lists := h.lists ++ [(Heap.read h d.ref).drop d._draw_index] } := by
      have := congrArg Prod.fst hok2
      simpa [Heap.alloc] using this.symm
    have hr : r = h.lists.length := by
      have := congrArg Prod.snd hok2
      simpa [Heap.alloc] using this.symm
    subst hh2
    subst hr
    have hne : h.lists.length ≠ d.ref := Nat.ne_of_gt href
    have hread2 : Heap.read
        { lists := h.lists ++ [(Heap.read h d.ref).drop d._draw_index] }
        h.lists.length = (Heap.read h d.ref).drop d._draw_index := by
      simp [Heap.read, List.getElem?_concat_length]
    have hreadeq : ∀ x : List Card,
        Heap.read (Heap.write
          { lists := h.lists ++ [(Heap.read h d.ref).drop d._draw_index] }
          h.lists.length x) d.ref = Heap.read h d.ref := by
      intro x
      simp [Heap.read, Heap.write, List.getElem?_set, hne, List.getElem?_append, href]
    have hview : ∀ x : List Card,
        DeckRef.view (Heap.write
          { lists := h.lists ++ [(Heap.read h d.ref).drop d._draw_index] }
          h.lists.length x) d = DeckRef.view h d := by
      intro x
      simp [DeckRef.view, hreadeq]
    refine ⟨hne, hread2, hview _, ?_, ?_, ?_, ?_⟩
    · rw [hview]
    · intro v
      rw [hview]
    · rw [hview]
    · rw [hview]

/-- Witness for C10_snapshot_fresh: a one-deck heap holding the fresh card
list, with the snapshot erased after being taken. -/
theorem C10_snapshot_fresh_witness :
    (0 : Nat) < (Heap.mk [freshCards]).lists.length ∧
    DeckRef.cardsPropH (Heap.mk [freshCards]) (DeckRef.mk 0 0) =
      .ok (Heap.mk [freshCards, freshCards], 1) ∧
    DeckRef.view
        (Heap.write (Heap.mk [freshCards, freshCards]) 1
          ((fun _ => []) (Heap.read (Heap.mk [freshCards, freshCards]) 1)))
        (DeckRef.mk 0 0) =
      DeckRef.view (Heap.mk [freshCards]) (DeckRef.mk 0 0) :=
  ⟨by decide, by decide,
   (C10_snapshot_fresh (Heap.mk [freshCards]) (DeckRef.mk 0 0) (by decide)
      (Heap.mk [freshCards, freshCards]) 1 (by decide) (fun _ => [])).2.2.1⟩
